import Mathlib

/-!
Verification development for the article retrieval pipeline:
chunking services, embedding services and adapters, vector stores
(FAISS and Chroma), and the indexing workflow.

Python source is embedded shallowly: machine floats carried opaquely
through the pipeline are represented by integers (no claim computes on
their values), Python dicts with a fixed key set become structures,
`None`-able references become `Option`, and code that can raise returns
`Except`.
-/

set_option maxHeartbeats 1000000

/-! ## Definitions -/

/-- Data model of `src/crawlers/data_structures/article.py`: the fields of
`Article` that the retrieval pipeline reads (title, text, date, id, url). -/
structure Article where
  title : String
  text : String
  date : String
  _id : String
  url : Option String
deriving DecidableEq

/-- Embeds the `article_id` property of `Article`, which returns `self._id`. -/
def Article.article_id (article : Article) : String :=
  article._id

/-- Python `text.split(sep)` specialised to the separator `"\n\n"` used by
the content-aware chunker: scan left to right, cut at each occurrence of a
double newline.  Splitting the empty string yields `[[]]`, as in Python. -/
def splitOnDoubleNewline : List Char → List (List Char)
  | [] => [[]]
  | '\n' :: '\n' :: rest => [] :: splitOnDoubleNewline rest
  | c :: rest =>
    match splitOnDoubleNewline rest with
    | [] => [[c]]
    | chunk :: chunks => (c :: chunk) :: chunks

/-- Embeds `ContentAwareChunkingService.split_into_chunks`
(`src/storage/services/chunk_service.py`): split the article text on
double newlines and drop the empty pieces
(`[chunk for chunk in chunks if chunk]`). -/
def ContentAwareChunkingService.split_into_chunks (article : Article) : List (List Char) :=
  ((splitOnDoubleNewline article.text.data).filter (fun chunk => chunk ≠ []))

/-- Configuration record stored by `LangChainChunkingService.__init__`
(`src/storage/services/chunk_service.py`). -/
structure LangChainChunkingService where
  chunk_size : Nat
  chunk_overlap : Nat
deriving DecidableEq

/-- Embeds `LangChainChunkingService.__init__`: the constructor only assigns
`self.chunk_size` and `self.chunk_overlap` and contains no validation, so it
can never raise.  It is wrapped in `Except` so that the absence of a
construction-time error is statable. -/
def LangChainChunkingService.init (chunk_size : Nat) (chunk_overlap : Nat) :
    Except String LangChainChunkingService :=
  Except.ok ⟨chunk_size, chunk_overlap⟩

/-- Modelled from the spec: `LangChainChunkingService.split_into_chunks`
delegates the actual splitting to langchain's
`RecursiveCharacterTextSplitter`, an external library whose source is not in
this repository.  The spec describes size-bounded chunking as fixed-size
character windows of width `N` where adjacent chunks share exactly the last
`K` characters of the previous chunk as the first `K` characters of the next.
This recursion emits the window starting at the current position and, while
more than `N` characters remain, advances by `N - K`.  The degenerate
configuration `N ≤ K` (a construction error per the spec, see the
construction claims) is absorbed into the base case to keep the function
total. -/
def sizeBoundedGo (N K : Nat) (text : List Char) : List (List Char) :=
  if h : text.length ≤ N ∨ N ≤ K then [text]
  else text.take N :: sizeBoundedGo N K (text.drop (N - K))
termination_by text.length
decreasing_by
  push_neg at h
  simp only [List.length_drop]
  omega

/-- Modelled from the spec: size-bounded chunking of a whole text.  An empty
document produces zero chunks; otherwise the windows of `sizeBoundedGo`. -/
def sizeBoundedChunks (N K : Nat) (text : List Char) : List (List Char) :=
  if text = [] then [] else sizeBoundedGo N K text

/-- Embeds `LangChainChunkingService.split_into_chunks`: applies the
size-bounded splitter configured with the stored chunk size and overlap to
the article's text. -/
def LangChainChunkingService.split_into_chunks (svc : LangChainChunkingService)
    (article : Article) : List (List Char) :=
  sizeBoundedChunks svc.chunk_size svc.chunk_overlap article.text.data

/-- Python slice `chunk[-K:]`: the last `K` characters (the whole chunk when
it is shorter than `K`). -/
def lastChars (K : Nat) (chunk : List Char) : List Char :=
  chunk.drop (chunk.length - K)

/-- Python slice `chunk[:K]`: the first `K` characters. -/
def firstChars (K : Nat) (chunk : List Char) : List Char :=
  chunk.take K

/-- Error raised by `OpenAIEmbeddingService.__init__`
(`src/search_and_retrieval/preprocessing_services/embedding_service.py`)
when no credential can be resolved; the spec's `MissingCredentialError`. -/
inductive EmbeddingCredentialError where
  | missingCredential : String → EmbeddingCredentialError
deriving DecidableEq

/-- State of a constructed `OpenAIEmbeddingService`: the credential handed
to the wrapped `OpenAIEmbeddings` client. -/
structure OpenAIEmbeddingService where
  api_key : String
deriving DecidableEq

/-- Embeds `os.getenv` over an explicit environment, a finite list of
key-value pairs (`load_dotenv` merely populates this environment). -/
def os_getenv (env : List (String × String)) (key : String) : Option String :=
  (env.find? (fun pair => pair.1 == key)).map (fun pair => pair.2)

/-- Embeds `OpenAIEmbeddingService.__init__`: when no key is passed, the
key is resolved from the environment; a missing or falsy (empty) result
raises; otherwise the service is constructed with the resolved key. -/
def OpenAIEmbeddingService.init (openai_api_key : Option String)
    (env : List (String × String)) : Except EmbeddingCredentialError OpenAIEmbeddingService :=
  match openai_api_key with
  | some key => Except.ok ⟨key⟩
  | none =>
    match os_getenv env "OPENAI_API_KEY" with
    | none => Except.error (EmbeddingCredentialError.missingCredential
        "No OpenAI API key provided and none found in environment variables.")
    | some value =>
      if value = "" then
        Except.error (EmbeddingCredentialError.missingCredential
          "No OpenAI API key provided and none found in environment variables.")
      else Except.ok ⟨value⟩

/-- State of a constructed `HuggingFaceBGEEmbeddingService`: the wrapped
`HuggingFaceBgeEmbeddings` model is external, so its `embed_query` entry
point is carried as an abstract function from text to a vector. -/
structure HuggingFaceBGEEmbeddingService where
  embeddings_embed_query : String → List Int

/-- Embeds `HuggingFaceBGEEmbeddingService.generate_embedding`: returns
`self.embeddings.embed_query(text_chunk)`. -/
def HuggingFaceBGEEmbeddingService.generate_embedding
    (svc : HuggingFaceBGEEmbeddingService) (text_chunk : String) : List Int :=
  svc.embeddings_embed_query text_chunk

/-- Embeds `HuggingFaceToLangchainEmbeddingAdapter.__init__`: the adapter
holds a reference to the wrapped HuggingFace embedding service. -/
structure HuggingFaceToLangchainEmbeddingAdapter where
  huggingface_service : HuggingFaceBGEEmbeddingService

/-- Embeds `HuggingFaceToLangchainEmbeddingAdapter.embed_documents`: the
list comprehension
`[self.huggingface_service.generate_embedding(text) for text in texts]`. -/
def HuggingFaceToLangchainEmbeddingAdapter.embed_documents
    (adapter : HuggingFaceToLangchainEmbeddingAdapter) (texts : List String) :
    List (List Int) :=
  texts.map (fun text => adapter.huggingface_service.generate_embedding text)

/-- Embeds `HuggingFaceToLangchainEmbeddingAdapter.embed_query`: returns
`self.huggingface_service.generate_embedding(text)`. -/
def HuggingFaceToLangchainEmbeddingAdapter.embed_query
    (adapter : HuggingFaceToLangchainEmbeddingAdapter) (text : String) : List Int :=
  adapter.huggingface_service.generate_embedding text

/-- Per-chunk metadata dict built in
`ArticleWorkflow.process_and_index_articles`
(`src/workflow/article_workflow.py`) and stored alongside every indexed
vector: a Python dict with the fixed keys title, url, date, id. -/
structure ChunkMetadata where
  title : String
  url : Option String
  date : String
  id : String
deriving DecidableEq

/-- Embeds the metadata dict literal of
`ArticleWorkflow.process_and_index_articles`: title, url, date and the
article's id. -/
def chunkMetadataOf (article : Article) : ChunkMetadata :=
  ⟨article.title, article.url, article.date, article.article_id⟩

/-- Embeds the accumulation loop of
`ArticleWorkflow.process_and_index_articles`: starting from empty
`all_chunks` and `metadata_list`, each article is split by the configured
chunk service (`split` stands for the injected
`self.chunk_service.split_into_chunks`), its chunks are appended to
`all_chunks`, and for every chunk the article's metadata dict is appended to
`metadata_list`. -/
def process_and_index_accumulate (split : Article → List String)
    (articles : List Article) : List String × List ChunkMetadata :=
  articles.foldl
    (fun acc article =>
      (acc.1 ++ split article,
        acc.2 ++ (split article).map (fun _ => chunkMetadataOf article)))
    ([], [])

/-- Chunk texts paired with the metadata of the article that produced them,
in pipeline order; the reference association against which the accumulated
parallel lists are checked. -/
def chunkPairs (split : Article → List String) : List Article → List (String × ChunkMetadata)
  | [] => []
  | article :: rest =>
    (split article).map (fun chunk => (chunk, chunkMetadataOf article)) ++
      chunkPairs split rest

/-- Ordering of scored entries by non-increasing score, the
"closest first / non-increasing relevance" order of query results. -/
def scoreDesc {α : Type} (a b : α × Int) : Prop :=
  b.2 ≤ a.2

instance {α : Type} : DecidableRel (scoreDesc (α := α)) :=
  fun a b => inferInstanceAs (Decidable (b.2 ≤ a.2))

instance {α : Type} : IsTotal (α × Int) scoreDesc :=
  ⟨fun a b => Int.le_total b.2 a.2⟩

instance {α : Type} : IsTrans (α × Int) scoreDesc :=
  ⟨fun _ _ _ hab hbc => le_trans hbc hab⟩

/-- An entry of the FAISS index: a (text, embedding) pair together with its
metadata, as assembled by `FAISS.from_embeddings`. -/
def FAISSEntry : Type :=
  (String × List Int) × ChunkMetadata

instance : DecidableEq FAISSEntry :=
  inferInstanceAs (DecidableEq ((String × List Int) × ChunkMetadata))

/-- Modelled from the spec: `FAISS.from_embeddings` is external library
code; per the spec the store indexes (chunk-vector, metadata) tuples, so the
index built from one call is the list of (text, embedding) pairs zipped with
their metadata. -/
def faissFromEmbeddings (text_embeddings : List (String × List Int))
    (metadata_list : List ChunkMetadata) : List FAISSEntry :=
  text_embeddings.zip metadata_list

/-- State of `FAISSStore` (`src/search_and_retrieval/faiss_vector_store.py`):
`self.index` starts as `None` and holds the FAISS index once built. -/
structure FAISSStore where
  index : Option (List FAISSEntry)

/-- Embeds `FAISSStore.__init__`: `self.index = None`. -/
def FAISSStore.init : FAISSStore :=
  ⟨none⟩

/-- Embeds `FAISSStore.index_documents`: zips `texts` with `embeddings` and
assigns `self.index` to a fresh index built from only the arguments of this
call. -/
def FAISSStore.index_documents (_store : FAISSStore) (texts : List String)
    (embeddings : List (List Int)) (metadata_list : List ChunkMetadata) : FAISSStore :=
  ⟨some (faissFromEmbeddings (texts.zip embeddings) metadata_list)⟩

/-- Modelled from the spec:
`asimilarity_search_with_relevance_scores` is external library code; per the
spec a similarity search scores every indexed entry against the query under
the collection's metric, orders them closest first (non-increasing
relevance) and keeps the top `k`.  The metric is abstracted as a relevance
function `rel` from query vector and stored embedding to a score. -/
def faissSearchWithScores (rel : List Int → List Int → Int)
    (entries : List FAISSEntry) (query_vector : List Int) (k : Nat) :
    List (FAISSEntry × Int) :=
  (List.insertionSort scoreDesc
      (entries.map (fun entry => (entry, rel query_vector entry.1.2)))).take k

/-- Embeds `FAISSStore.similarity_search`: when `self.index` is still
`None`, the attribute access on `None` raises (`AttributeError`); otherwise
the scored search results are mapped to (metadata id, score, metadata)
triples, exactly as the source extracts `doc.metadata["id"]`, the score and
`doc.metadata` from each scored document. -/
def FAISSStore.similarity_search (rel : List Int → List Int → Int)
    (store : FAISSStore) (query_vector : List Int) (k : Nat) :
    Except String (List (String × Int × ChunkMetadata)) :=
  match store.index with
  | none => Except.error
      "AttributeError: NoneType object has no attribute asimilarity_search_with_relevance_scores"
  | some entries => Except.ok
      ((faissSearchWithScores rel entries query_vector k).map
        (fun result => (result.1.2.id, result.2, result.1.2)))

/-- Modelled from the spec: `ChromaVectorStore.query_collection` is
exercised by the workflow and the tests, but its source file
`src/search_and_retrieval/chroma_vector_store.py` is absent from the
repository.  Per the spec, `query_collection` converts the query text to a
vector, runs a nearest-neighbor search over the documents indexed in the
collection and returns the top `n_results` ranked closest first, returning
as many as exist when the collection holds fewer than `n_results`.  The
collection is modelled as the list of its indexed documents and the
embedding-plus-metric composite as a relevance function `rel` from query
text and document to a score. -/
def ChromaVectorStore.query_collection (rel : String → String → Int)
    (docs : List String) (query_text : String) (n_results : Nat) :
    List (String × Int) :=
  (List.insertionSort scoreDesc
      (docs.map (fun doc => (doc, rel query_text doc)))).take n_results

/-! ## Theorems -/

theorem sizeBoundedGo_head (N K : Nat) (hK : K < N) (text : List Char) :
    (sizeBoundedGo N K text).head? = some (text.take N) := by
  rw [sizeBoundedGo]
  split
  · rename_i h
    rcases h with h | h
    · simp [List.take_of_length_le h]
    · omega
  · simp

theorem sizeBoundedGo_chain (N K : Nat) (hK : K < N) (text : List Char) :
    List.Chain' (fun a b => lastChars K a = firstChars K b) (sizeBoundedGo N K text) := by
  generalize hn : text.length = n
  induction n using Nat.strong_induction_on generalizing text with
  | _ n ih =>
    rw [sizeBoundedGo]
    split
    · exact List.chain'_singleton _
    · rename_i h
      push_neg at h
      obtain ⟨hlen, -⟩ := h
      rw [List.chain'_cons']
      constructor
      · intro y hy
        rw [sizeBoundedGo_head N K hK] at hy
        simp only [Option.mem_def, Option.some.injEq] at hy
        subst hy
        have hNle : N ≤ text.length := le_of_lt hlen
        unfold lastChars firstChars
        rw [List.length_take, Nat.min_eq_left hNle]
        rw [List.drop_take, List.take_take]
        have h1 : N - (N - K) = K := by omega
        have h2 : min K N = K := by omega
        rw [h1, h2]
      · subst hn
        refine ih ((text.drop (N - K)).length) ?_ (text.drop (N - K)) rfl
        simp only [List.length_drop]
        omega

/-- Claim C1: for a document whose text is longer than the configured
chunk size `N`, size-bounded chunking with overlap `K < N` yields chunks in
which every pair of consecutive chunks shares exactly the last `K`
characters of the former as the first `K` characters of the latter. -/
theorem C1_size_bounded_overlap (svc : LangChainChunkingService) (article : Article)
    (hK : svc.chunk_overlap < svc.chunk_size)
    (hlen : svc.chunk_size < article.text.data.length) :
    List.Chain' (fun a b => lastChars svc.chunk_overlap a = firstChars svc.chunk_overlap b)
      (svc.split_into_chunks article) := by
  unfold LangChainChunkingService.split_into_chunks sizeBoundedChunks
  have hne : article.text.data ≠ [] := by
    intro h
    rw [h] at hlen
    simp at hlen
  rw [if_neg hne]
  exact sizeBoundedGo_chain _ _ hK _

/-- Witness for C1 at chunk size 5, overlap 2, on the nine-character text
"abcdefghi". -/
theorem C1_size_bounded_overlap_witness :
    (2 < 5 ∧ 5 < ("abcdefghi" : String).data.length) ∧
      List.Chain' (fun a b => lastChars 2 a = firstChars 2 b)
        (LangChainChunkingService.split_into_chunks ⟨5, 2⟩ ⟨"t", "abcdefghi", "d", "i", none⟩) :=
  ⟨by decide, C1_size_bounded_overlap ⟨5, 2⟩ ⟨"t", "abcdefghi", "d", "i", none⟩
    (by decide) (by decide)⟩

theorem sizeBoundedGo_short (N K : Nat) (text : List Char) (h : text.length ≤ N) :
    sizeBoundedGo N K text = [text] := by
  rw [sizeBoundedGo]
  exact dif_pos (Or.inl h)

theorem split_into_chunks_short (svc : LangChainChunkingService) (article : Article)
    (hlen : article.text.data.length ≤ svc.chunk_size) :
    (article.text.data ≠ [] → svc.split_into_chunks article = [article.text.data]) ∧
      (article.text.data = [] → svc.split_into_chunks article = []) := by
  constructor
  · intro hne
    unfold LangChainChunkingService.split_into_chunks sizeBoundedChunks
    rw [if_neg hne]
    exact sizeBoundedGo_short _ _ _ hlen
  · intro he
    unfold LangChainChunkingService.split_into_chunks sizeBoundedChunks
    rw [if_pos he]

/-- Claim C2: a document with non-empty text of length at most the chunk
size yields exactly one chunk, equal to the text; an empty document yields
zero chunks. -/
theorem C2_short_document (svc : LangChainChunkingService) (article : Article)
    (hlen : article.text.data.length ≤ svc.chunk_size) :
    (article.text.data ≠ [] → svc.split_into_chunks article = [article.text.data]) ∧
      (article.text.data = [] → svc.split_into_chunks article = []) :=
  split_into_chunks_short svc article hlen

/-- Witness for C2 at chunk size 5 on the short text "abc" and on the empty
text. -/
theorem C2_short_document_witness :
    (("abc" : String).data.length ≤ 5 ∧
      LangChainChunkingService.split_into_chunks ⟨5, 2⟩ ⟨"t", "abc", "d", "i", none⟩ =
        [("abc" : String).data]) ∧
      (("" : String).data.length ≤ 5 ∧
        LangChainChunkingService.split_into_chunks ⟨5, 2⟩ ⟨"t", "", "d", "i", none⟩ = []) :=
  ⟨⟨by decide, (C2_short_document ⟨5, 2⟩ ⟨"t", "abc", "d", "i", none⟩ (by decide)).1 (by decide)⟩,
    ⟨by decide, (C2_short_document ⟨5, 2⟩ ⟨"t", "", "d", "i", none⟩ (by decide)).2 (by decide)⟩⟩

/-- Counterexample to claim C3: constructing the size-bounded chunking
service with overlap 5 and chunk size 3 (overlap >= chunk_size) does not
raise; `__init__` stores the configuration unvalidated and returns
normally. -/
theorem C3_construction_counterexample :
    LangChainChunkingService.init 3 5 = Except.ok ⟨3, 5⟩ :=
  rfl

/-- Claim C3 as amended: construction never raises, even with
overlap >= chunk_size (the configuration is stored unvalidated); and for
every valid configuration (overlap < chunk_size), splitting empty or short
input returns normally with zero or one chunk. -/
theorem C3_construction_amended (N K : Nat) (article : Article) :
    (LangChainChunkingService.init N K).isOk = true ∧
      (K < N → article.text.data.length ≤ N →
        ∀ svc, LangChainChunkingService.init N K = Except.ok svc →
          svc.split_into_chunks article = [] ∨
            svc.split_into_chunks article = [article.text.data]) := by
  constructor
  · rfl
  · intro hK hlen svc hsvc
    have hsvc' : svc = (⟨N, K⟩ : LangChainChunkingService) := by
      unfold LangChainChunkingService.init at hsvc
      cases hsvc
      rfl
    subst hsvc'
    by_cases he : article.text.data = []
    · exact Or.inl ((split_into_chunks_short ⟨N, K⟩ article hlen).2 he)
    · exact Or.inr ((split_into_chunks_short ⟨N, K⟩ article hlen).1 he)

/-- Witness for C3 as amended at chunk size 5, overlap 2, on the short text
"hi". -/
theorem C3_construction_amended_witness :
    ((LangChainChunkingService.init 5 2).isOk = true ∧
      (LangChainChunkingService.split_into_chunks ⟨5, 2⟩ ⟨"t", "hi", "d", "i", none⟩ = [] ∨
        LangChainChunkingService.split_into_chunks ⟨5, 2⟩ ⟨"t", "hi", "d", "i", none⟩ =
          [("hi" : String).data])) :=
  ⟨(C3_construction_amended 5 2 ⟨"t", "hi", "d", "i", none⟩).1,
    (C3_construction_amended 5 2 ⟨"t", "hi", "d", "i", none⟩).2 (by decide) (by decide)
      ⟨5, 2⟩ rfl⟩

/-- Claim C5: structural chunking returns the pieces of the article text
split on double newlines with all empty pieces removed — so in particular
every returned chunk is non-empty; on an article with empty text it returns
the empty list, and on "a\n\nb\n\nc" it returns the chunks "a", "b", "c". -/
theorem C5_structural_chunking (article : Article) :
    ContentAwareChunkingService.split_into_chunks article =
        (splitOnDoubleNewline article.text.data).filter (fun chunk => chunk ≠ []) ∧
      (∀ chunk ∈ ContentAwareChunkingService.split_into_chunks article, chunk ≠ []) ∧
      ContentAwareChunkingService.split_into_chunks ⟨"t", "", "d", "i", none⟩ = [] ∧
      ContentAwareChunkingService.split_into_chunks ⟨"t", "a\n\nb\n\nc", "d", "i", none⟩ =
        ["a".data, "b".data, "c".data] := by
  refine ⟨rfl, ?_, by decide, by decide⟩
  intro chunk hmem
  unfold ContentAwareChunkingService.split_into_chunks at hmem
  have := List.of_mem_filter hmem
  simpa using this

/-- Claim C4: querying a collection holding `N` indexed documents with
`n_results > N` returns exactly `N` results (as many as exist, not an
error), ordered closest first with non-increasing relevance scores. -/
theorem C4_query_returns_all (rel : String → String → Int) (docs : List String)
    (query_text : String) (n_results : Nat) (h : docs.length < n_results) :
    (ChromaVectorStore.query_collection rel docs query_text n_results).length =
        docs.length ∧
      List.Sorted scoreDesc
        (ChromaVectorStore.query_collection rel docs query_text n_results) := by
  constructor
  · unfold ChromaVectorStore.query_collection
    rw [List.length_take, List.length_insertionSort, List.length_map]
    omega
  · unfold ChromaVectorStore.query_collection
    exact List.Pairwise.sublist (List.take_sublist _ _)
      (List.sorted_insertionSort scoreDesc _)

/-- Witness for C4: two indexed documents queried with n_results = 7 under a
relevance function scoring by document length. -/
theorem C4_query_returns_all_witness :
    (["aa", "b"] : List String).length < 7 ∧
      ((ChromaVectorStore.query_collection (fun _ doc => Int.ofNat doc.length)
            ["aa", "b"] "q" 7).length = (["aa", "b"] : List String).length ∧
        List.Sorted scoreDesc
          (ChromaVectorStore.query_collection (fun _ doc => Int.ofNat doc.length)
            ["aa", "b"] "q" 7)) :=
  ⟨by decide,
    C4_query_returns_all (fun _ doc => Int.ofNat doc.length) ["aa", "b"] "q" 7 (by decide)⟩

/-- Claim C6: calling `similarity_search` on a FAISS store in which no
document has been indexed (the store as constructed, `self.index` still
`None`) raises an error for every query vector and every `k`, rather than
returning a result. -/
theorem C6_search_before_indexing (rel : List Int → List Int → Int)
    (query_vector : List Int) (k : Nat) :
    FAISSStore.init.similarity_search rel query_vector k =
      Except.error
        "AttributeError: NoneType object has no attribute asimilarity_search_with_relevance_scores" :=
  rfl

/-- Claim C7: constructing the OpenAI embedding service with no credential
supplied and none available in the environment fails at construction with
the missing-credential error; with a supplied credential construction
succeeds. -/
theorem C7_credential_fail_fast (env : List (String × String)) (key : String)
    (habsent : os_getenv env "OPENAI_API_KEY" = none) :
    OpenAIEmbeddingService.init none env =
        Except.error (EmbeddingCredentialError.missingCredential
          "No OpenAI API key provided and none found in environment variables.") ∧
      OpenAIEmbeddingService.init (some key) env = Except.ok ⟨key⟩ := by
  constructor
  · unfold OpenAIEmbeddingService.init
    rw [habsent]
  · rfl

/-- Witness for C7: an environment without the OPENAI_API_KEY variable, and
the key "sk-test" supplied directly. -/
theorem C7_credential_fail_fast_witness :
    os_getenv [("HOME", "/root")] "OPENAI_API_KEY" = none ∧
      (OpenAIEmbeddingService.init none [("HOME", "/root")] =
          Except.error (EmbeddingCredentialError.missingCredential
            "No OpenAI API key provided and none found in environment variables.") ∧
        OpenAIEmbeddingService.init (some "sk-test") [("HOME", "/root")] =
          Except.ok ⟨"sk-test"⟩) :=
  ⟨by decide, C7_credential_fail_fast [("HOME", "/root")] "sk-test" (by decide)⟩

/-- Claim C8: the embedding adapter is pure forwarding — `embed_documents`
is exactly the wrapped service's `generate_embedding` mapped over the texts
in order (in particular one output vector per input text), and `embed_query`
is exactly `generate_embedding` on the single text; no caching, no
transformation of the vectors. -/
theorem C8_adapter_pure_forwarding (adapter : HuggingFaceToLangchainEmbeddingAdapter) :
    (∀ texts : List String,
        adapter.embed_documents texts =
          texts.map adapter.huggingface_service.generate_embedding) ∧
      (∀ texts : List String,
        (adapter.embed_documents texts).length = texts.length) ∧
      (∀ text : String,
        adapter.embed_query text = adapter.huggingface_service.generate_embedding text) :=
  ⟨fun _ => rfl, fun texts => by simp [HuggingFaceToLangchainEmbeddingAdapter.embed_documents],
    fun _ => rfl⟩

theorem map_fst_constPairs (l : List String) (m : ChunkMetadata) :
    (l.map (fun chunk => (chunk, m))).map Prod.fst = l := by
  induction l with
  | nil => rfl
  | cons c cs ih => simp [ih]

theorem map_snd_constPairs (l : List String) (m : ChunkMetadata) :
    (l.map (fun chunk => (chunk, m))).map Prod.snd = l.map (fun _ => m) := by
  induction l with
  | nil => rfl
  | cons c cs ih => simp [ih]

theorem process_accumulate_general (split : Article → List String)
    (articles : List Article) (acc_chunks : List String)
    (acc_meta : List ChunkMetadata) :
    articles.foldl
        (fun acc article =>
          (acc.1 ++ split article,
            acc.2 ++ (split article).map (fun _ => chunkMetadataOf article)))
        (acc_chunks, acc_meta) =
      (acc_chunks ++ (chunkPairs split articles).map Prod.fst,
        acc_meta ++ (chunkPairs split articles).map Prod.snd) := by
  induction articles generalizing acc_chunks acc_meta with
  | nil => simp [chunkPairs]
  | cons article rest ih =>
    simp only [List.foldl_cons, ih, chunkPairs, List.map_append,
      map_fst_constPairs, map_snd_constPairs, List.append_assoc]

/-- Claim C9: the indexing pass accumulates chunk texts and metadata as the
two projections of the per-article (chunk, metadata-of-its-article) pairs in
pipeline order, so the two lists have equal length and the metadata at
position i carries the title, url, date and article id of the article from
which the chunk text at position i was produced. -/
theorem C9_parallel_accumulation (split : Article → List String)
    (articles : List Article) :
    (process_and_index_accumulate split articles).1 =
        (chunkPairs split articles).map Prod.fst ∧
      (process_and_index_accumulate split articles).2 =
        (chunkPairs split articles).map Prod.snd ∧
      (process_and_index_accumulate split articles).1.length =
        (process_and_index_accumulate split articles).2.length := by
  unfold process_and_index_accumulate
  rw [process_accumulate_general]
  simp

/-- Claim C10: `index_documents` replaces the whole FAISS index with one
built from only the arguments of the call — after two successive calls the
store state is exactly the state produced by the second call alone, and
every result ever returned by `similarity_search` on that state carries
metadata passed to the second call, so documents indexed by the first call
are no longer retrievable. -/
theorem C10_reindex_replaces (store : FAISSStore)
    (tA : List String) (eA : List (List Int)) (mA : List ChunkMetadata)
    (tB : List String) (eB : List (List Int)) (mB : List ChunkMetadata)
    (rel : List Int → List Int → Int) (query_vector : List Int) (k : Nat) :
    ((store.index_documents tA eA mA).index_documents tB eB mB =
        store.index_documents tB eB mB) ∧
      (∀ results,
        ((store.index_documents tA eA mA).index_documents tB eB mB).similarity_search
            rel query_vector k = Except.ok results →
          ∀ result ∈ results, result.2.2 ∈ mB) := by
  refine ⟨rfl, ?_⟩
  intro results hres result hmem
  unfold FAISSStore.similarity_search FAISSStore.index_documents at hres
  simp only [Except.ok.injEq] at hres
  rw [← hres] at hmem
  obtain ⟨x, hx, hfx⟩ := List.mem_map.mp hmem
  have hx' : x ∈ List.insertionSort scoreDesc
      ((faissFromEmbeddings (tB.zip eB) mB).map
        (fun entry => (entry, rel query_vector entry.1.2))) :=
    List.mem_of_mem_take (by simpa [faissSearchWithScores] using hx)
  have hx'' := (List.mem_insertionSort scoreDesc).mp hx'
  obtain ⟨entry, hentry, hge⟩ := List.mem_map.mp hx''
  have hmeta : entry.2 ∈ mB := (List.of_mem_zip hentry).2
  rw [← hfx]
  simpa [← hge] using hmeta

/-- Witness for C10: a store indexed first with document id "idA", then
re-indexed with document id "idB"; the second state equals indexing the
fresh store with the second batch, and the metadata of the only search
result belongs to the second batch. -/
theorem C10_reindex_replaces_witness :
    ((FAISSStore.init.index_documents ["a"] [[0]]
          [⟨"tA", none, "d", "idA"⟩]).index_documents ["b"] [[7]]
        [⟨"tB", none, "d", "idB"⟩] =
      FAISSStore.init.index_documents ["b"] [[7]] [⟨"tB", none, "d", "idB"⟩]) ∧
      ("idB", (0 : Int), (⟨"tB", none, "d", "idB"⟩ : ChunkMetadata)).2.2 ∈
        [(⟨"tB", none, "d", "idB"⟩ : ChunkMetadata)] :=
  ⟨(C10_reindex_replaces FAISSStore.init ["a"] [[0]] [⟨"tA", none, "d", "idA"⟩]
      ["b"] [[7]] [⟨"tB", none, "d", "idB"⟩] (fun _ _ => 0) [1] 3).1,
    (C10_reindex_replaces FAISSStore.init ["a"] [[0]] [⟨"tA", none, "d", "idA"⟩]
        ["b"] [[7]] [⟨"tB", none, "d", "idB"⟩] (fun _ _ => 0) [1] 3).2
      [("idB", 0, ⟨"tB", none, "d", "idB"⟩)] rfl
      ("idB", 0, ⟨"tB", none, "d", "idB"⟩) (by decide)⟩
